import Mathlib

/-!
Verification of the Resolume WebSocket client (`resolume_mcp/client.py`).

The file shallowly embeds the client's data model and operations:
JSON values (the mirrored composition state), the segment-walking patch
routine `_apply_incremental_update`, the listener's frame dispatch
(`_listen`), ack resolution (`_resolve_acks_from_state`), `disconnect`,
the subscription replay performed after a (re)connect, `send_and_wait`'s
timeout path, the reconnect backoff schedule, `_resolve_path_to_id` and
`subscribe`/`unsubscribe`.
-/

namespace ResolumeClient

/-- JSON values as produced by `json.loads`: the State Tree node type.
Objects are association lists with string keys (Python dicts preserve
insertion order and have unique keys); numbers are modelled exactly as
rationals. -/
inductive Json where
  | null
  | bool (b : Bool)
  | num (q : ℚ)
  | str (s : String)
  | arr (xs : List Json)
  | obj (kvs : List (String × Json))

/-- `d[k]` lookup in a Python dict (first — and for dicts only — binding
for the key). -/
def alistGet {α : Type} (kvs : List (String × α)) (k : String) : Option α :=
  match kvs with
  | [] => none
  | (k₂, v) :: rest => if k₂ = k then some v else alistGet rest k

/-- `d[k] = v` assignment in a Python dict: replace the binding if the key
is present, otherwise append it. -/
def alistSet {α : Type} (kvs : List (String × α)) (k : String) (v : α) :
    List (String × α) :=
  match kvs with
  | [] => [(k, v)]
  | (k₂, v₂) :: rest =>
    if k₂ = k then (k, v) :: rest else (k₂, v₂) :: alistSet rest k v

/-- `d.pop(k, None)` / `del d[k]`: drop the binding for `k`. -/
def alistErase {α : Type} (kvs : List (String × α)) (k : String) :
    List (String × α) :=
  match kvs with
  | [] => []
  | (k₂, v₂) :: rest =>
    if k₂ = k then rest else (k₂, v₂) :: alistErase rest k

/-! ### Python `int()` on a path segment -/

/-- Whitespace characters Python's `int()` strips from both ends (ASCII
subset; path segments never contain the non-ASCII ones). -/
def isPyWs (c : Char) : Bool :=
  c = ' ' || c = '\t' || c = '\n' || c = '\r' || c = '\x0b' || c = '\x0c'

/-- After an accepted leading digit: the rest must be digits with single
underscores strictly between digits (`int("1_0") = 10`, `int("1__0")` and
`int("1_")` raise `ValueError`). -/
def digitTail : List Char → Bool
  | [] => true
  | '_' :: c :: cs => c.isDigit && digitTail cs
  | ['_'] => false
  | c :: cs => c.isDigit && digitTail cs

/-- Numeric value of a digit-and-underscore run. -/
def digitsVal (cs : List Char) : Nat :=
  cs.foldl (fun acc c => if c = '_' then acc else acc * 10 + (c.toNat - 48)) 0

/-- The unsigned part of a Python integer literal. -/
def natDigits (cs : List Char) : Option Nat :=
  match cs with
  | [] => none
  | c :: _ => if c.isDigit && digitTail cs then some (digitsVal cs) else none

/-- Python `int(s)`: optional surrounding whitespace, optional sign, digits
with underscores between them; `none` models the `ValueError` caught by the
inner handler of the walk loop. -/
def pyInt (s : String) : Option Int :=
  let cs := ((s.toList.dropWhile isPyWs).reverse.dropWhile isPyWs).reverse
  match cs with
  | '+' :: rest => (natDigits rest).map (fun n => (n : Int))
  | '-' :: rest => (natDigits rest).map (fun n => -(n : Int))
  | rest => (natDigits rest).map (fun n => (n : Int))

/-- Python sequence indexing: non-negative indices must be in range,
negative indices count from the end. -/
def seqIdx (len : Nat) (i : Int) : Option Nat :=
  if 0 ≤ i then
    if i < (len : Int) then some i.toNat else none
  else
    if -i ≤ (len : Int) then some (len - (-i).toNat) else none

/-! ### The segment walk of `_apply_incremental_update` / `_resolve_path_to_id` -/

/-- The Python exceptions arising while walking the tree.  The outer
`except` of `_apply_incremental_update` (line 161) catches `KeyError`,
`IndexError` and `TypeError`; the inner one (line 157) catches the
`ValueError`/`TypeError` of `int(seg)` / `node[int(seg)]`, which
`classify` models directly by its fallback. -/
inductive PyErr where
  | keyError
  | indexError
  | typeError
  | valueError
deriving DecidableEq, Repr

/-- Outcome of one resolved step of the walk: which container was entered
and through which index/key. -/
inductive Desc where
  | intoArr (xs : List Json) (j : Nat) (child : Json)
  | intoStr (ch : Char)
  | intoObj (kvs : List (String × Json)) (child : Json)

/-- `node[seg]` with a string segment (the fallback of the inner handler):
only a dict supports string keys; a missing key raises `KeyError`, any
other node raises `TypeError`. -/
def keyStep (node : Json) (seg : String) : Except PyErr Desc :=
  match node with
  | .obj kvs =>
    match alistGet kvs seg with
    | some c => .ok (.intoObj kvs c)
    | none => .error .keyError
  | _ => .error .typeError

/-- One segment step (lines 154-158): try `node[int(seg)]`, falling back to
`node[seg]` exactly when `int(seg)` raises `ValueError` or the indexing
raises `TypeError`.  A dict indexed with an `int` raises `KeyError`
(`json.loads` keys are strings), which the inner handler does not catch —
so a dict is never reached through a segment that parses as an integer.
Indexing a Python string yields its character as a fresh one-character
string. -/
def classify (node : Json) (seg : String) : Except PyErr Desc :=
  match pyInt seg with
  | some i =>
    match node with
    | .arr xs =>
      match seqIdx xs.length i with
      | some j =>
        match xs[j]? with
        | some c => .ok (.intoArr xs j c)
        | none => .error .indexError
      | none => .error .indexError
    | .obj _ => .error .keyError
    | .str s =>
      match seqIdx s.length i with
      | some j =>
        match s.toList[j]? with
        | some ch => .ok (.intoStr ch)
        | none => .error .indexError
      | none => .error .indexError
    | _ => keyStep node seg
  | none => keyStep node seg

/-- The read-only walk: `for seg in segs: node = node[...]`. -/
def pyWalk : Json → List String → Except PyErr Json
  | node, [] => .ok node
  | node, seg :: rest =>
    match classify node seg with
    | .ok (.intoArr _ _ c) => pyWalk c rest
    | .ok (.intoStr ch) => pyWalk (.str (String.singleton ch)) rest
    | .ok (.intoObj _ c) => pyWalk c rest
    | .error e => .error e

/-- Functional model of the in-place patch: walk as `pyWalk` does and, if
the terminal node is a dict, overwrite its `value` key; rebuild the tree
with the walked child replaced.  Indexing a Python string yields a fresh
string, never a reference into the tree, so nothing reached through a
string step can be mutated: the node is returned unchanged there (a dict
is unreachable beyond a string step anyway). -/
def pyUpdate (v : Json) : Json → List String → Except PyErr Json
  | node, [] =>
    .ok (match node with
         | .obj kvs => .obj (alistSet kvs "value" v)
         | other => other)
  | node, seg :: rest =>
    match classify node seg with
    | .ok (.intoArr xs j c) =>
      (pyUpdate v c rest).map (fun c₂ => .arr (xs.set j c₂))
    | .ok (.intoStr ch) =>
      (pyUpdate v (.str (String.singleton ch)) rest).map (fun _ => node)
    | .ok (.intoObj kvs c) =>
      (pyUpdate v c rest).map (fun c₂ => .obj (alistSet kvs seg c₂))
    | .error e => .error e

/-! ### Path normalization (lines 147-151, 270-272) -/

/-- Split a character list on `/` (Python `split("/")`). -/
def splitSlashes : List Char → List (List Char)
  | [] => [[]]
  | '/' :: rest => [] :: splitSlashes rest
  | c :: rest =>
    match splitSlashes rest with
    | [] => [[c]]
    | g :: gs => (c :: g) :: gs

/-- `segs = [s for s in path.strip("/").split("/") if s]`, then strip a
leading `composition` segment (`if segs and segs[0] == "composition"`). -/
def normSegs (path : String) : List String :=
  let core := ((path.toList.dropWhile (· = '/')).reverse.dropWhile (· = '/')).reverse
  let segs := ((splitSlashes core).map (fun g => String.mk g)).filter (fun s => s ≠ "")
  match segs with
  | "composition" :: rest => rest
  | other => other

/-- Which exceptions the outer handler of `_apply_incremental_update`
(line 161: `except (KeyError, IndexError, TypeError)`) catches. -/
def caughtByOuter : PyErr → Bool
  | .keyError => true
  | .indexError => true
  | .typeError => true
  | .valueError => false

/-- `_apply_incremental_update(path, value)`, with an explicit error result
for any exception that would escape the outer handler (none can:
`applyIncrementalUpdateE_ok`).  An empty normalized path returns early. -/
def applyIncrementalUpdateE (state : Json) (path : String) (value : Json) :
    Except PyErr Json :=
  let segs := normSegs path
  if segs = [] then .ok state
  else
    match pyUpdate value state segs with
    | .ok st => .ok st
    | .error e => if caughtByOuter e then .ok state else .error e

/-- The state of the tree after `_apply_incremental_update(path, value)`. -/
def applyIncrementalUpdate (state : Json) (path : String) (value : Json) : Json :=
  match applyIncrementalUpdateE state path value with
  | .ok st => st
  | .error _ => state

/-- The patch "succeeded": the walked path is non-empty, the walk reached a
terminal node, and that node is a dict (so its `value` key was
overwritten). -/
def patchHit (state : Json) (path : String) : Bool :=
  let segs := normSegs path
  if segs = [] then false
  else
    match pyWalk state segs with
    | .ok (.obj _) => true
    | _ => false

/-! ### The walk as the spec words it (for comparison with the code's walk) -/

/-- One step of the walk as §4.2 of the spec words it: "each segment is
first tried as a numeric sequence index, falling back to a mapping key" —
the fallback to the mapping key applies whenever the numeric-index attempt
fails, unlike the code's `classify`. -/
def specStep (node : Json) (seg : String) : Option Json :=
  let byKey : Option Json :=
    match node with
    | .obj kvs => alistGet kvs seg
    | _ => none
  match pyInt seg, node with
  | some i, .arr xs =>
    match seqIdx xs.length i with
    | some j => xs[j]?
    | none => byKey
  | _, _ => byKey

/-- The spec-worded walk over a normalized segment list. -/
def specResolve : Json → List String → Option Json
  | node, [] => some node
  | node, seg :: rest =>
    match specStep node seg with
    | some c => specResolve c rest
    | none => none

/-! ### Pending Correlations (the `asyncio.Future` values of `_pending_ack`) -/

/-- The lifecycle of one Pending Correlation's future.  `failed` stands for
`set_exception(ConnectionError("WebSocket connection closed"))` — the only
exception the client ever sets (listener close handler, line 131);
`cancelled` for `fut.cancel()` (a waiter observes `CancelledError`). -/
inductive FutState where
  | pending
  | resolved (v : Json)
  | failed
  | cancelled

/-- `fut.cancel()`: cancels only a not-done future. -/
def futCancel : FutState → FutState
  | .pending => .cancelled
  | f => f

/-- `if not fut.done(): fut.set_exception(ConnectionError("WebSocket
connection closed"))` — the listener's close handler. -/
def futFailClosed : FutState → FutState
  | .pending => .failed
  | f => f

/-- `if not fut.done(): fut.set_result(v)`. -/
def futResolve (v : Json) : FutState → FutState
  | .pending => .resolved v
  | f => f

/-! ### Client state -/

/-- The mutable state of a `ResolumeAgentClient`.  Tasks are tracked by
whether they are alive (`asyncio.Task` handles are only ever used to
cancel); the socket by whether it is open; `pendingAck` is the Ack
Registry (a dict: unique keys); `subscriptions` the Subscription Set. -/
structure Client where
  state : Json := .obj []
  connected : Bool := false
  wsOpen : Bool := false
  dryRun : Bool := false
  stateReady : Bool := false
  pendingAck : List (String × FutState) := []
  subscriptions : List String := []
  listenTaskActive : Bool := false
  reconnectTaskActive : Bool := false

/-! ### Command Dispatcher (`send_command`, lines 202-232) -/

/-- An outbound wire frame: `post`/`remove` carry `{action, path, body?}`,
every other action carries `{action, parameter, value?}`; the payload key
is omitted when the caller passes `None`. -/
inductive OutFrame where
  | withBody (action path : String) (body : Option Json)
  | withValue (action parameter : String) (value : Option Json)

/-- Frames that one call to `send_command(action, path, body_or_value)`
writes to the socket: none in dry-run mode, none when the not-connected
guard (line 218: `if not self._connected or self.ws is None`) fires, else
exactly one frame shaped by the action. -/
def sendCommandFrames (c : Client) (action path : String)
    (bodyOrValue : Option Json) : List OutFrame :=
  if c.dryRun then []
  else if ¬c.connected ∨ ¬c.wsOpen then []
  else if action = "post" ∨ action = "remove" then [.withBody action path bodyOrValue]
  else [.withValue action path bodyOrValue]

/-! ### Listener frame processing (`_listen`, lines 99-135) -/

/-- One inbound frame dispatched by `_listen`'s loop body.  The frame is
the parsed JSON object (full-state and incremental frames are objects).
Returns `none` when an exception would escape the loop (a non-string
`data["path"]` makes `path.strip("/")` raise); otherwise the new client
state plus the final state of every future the step removed from the Ack
Registry, so a waiter's observed outcome is visible. -/
def processFrame (c : Client) (frame : List (String × Json)) :
    Option (Client × List (String × FutState)) :=
  if (alistGet frame "decks").isSome ∨ (alistGet frame "layers").isSome then
    -- Full-state frame: replace the tree wholesale, signal readiness,
    -- then `_resolve_acks_from_state`: resolve every not-done future with
    -- `None` and delete every entry.
    some ({ c with
              state := .obj frame
              stateReady := true
              pendingAck := [] },
          c.pendingAck.map (fun pf => (pf.1, futResolve .null pf.2)))
  else if (alistGet frame "path").isSome ∧ (alistGet frame "value").isSome then
    match alistGet frame "path", alistGet frame "value" with
    | some (.str p), some v =>
      -- Incremental frame: patch first, then pop and resolve the ack for
      -- this exact path if one is waiting — unconditionally on the
      -- outcome of the patch.
      let c₁ := { c with state := applyIncrementalUpdate c.state p v }
      some (match alistGet c.pendingAck p with
            | some f =>
              ({ c₁ with pendingAck := alistErase c.pendingAck p },
               [(p, futResolve v f)])
            | none => (c₁, []))
    | _, _ => none
  else
    some (c, [])

/-- The listener's `except ConnectionClosed` handler (lines 125-135): flip
to not-connected, fail every not-done Pending Correlation with the
connection-closed error, clear the registry, start the reconnect loop. -/
def onConnectionClosed (c : Client) : Client × List (String × FutState) :=
  ({ c with
       connected := false
       pendingAck := []
       reconnectTaskActive := true },
   c.pendingAck.map (fun pf => (pf.1, futFailClosed pf.2)))

/-! ### `disconnect` (lines 80-93) -/

/-- `disconnect()`: suppress reconnection, cancel the reconnect and
listener tasks, cancel every pending-ack future, clear the registry, close
the socket, clear the readiness event.  The composition tree itself is
kept.  Returns the new client state and the final state of every future
that was in the registry. -/
def disconnect (c : Client) : Client × List (String × FutState) :=
  ({ c with
       connected := false
       reconnectTaskActive := false
       listenTaskActive := false
       pendingAck := []
       wsOpen := false
       stateReady := false },
   c.pendingAck.map (fun pf => (pf.1, futCancel pf.2)))

/-! ### Subscription replay after a successful (re)connect -/

/-- `for path in self._subscriptions: await self.send_command("subscribe",
path)`: each replayed path goes through `send_command` with the client
state as it stands during the loop. -/
def replaySubscriptions (c : Client) : List OutFrame :=
  c.subscriptions.flatMap (fun path => sendCommandFrames c "subscribe" path none)

/-- The tail of a successful connect (lines 67-72) and of a successful
reconnect attempt (lines 188-190): replay the Subscription Set, then set
`self._connected = True` — in that order. -/
def postStateReadyPhase (c : Client) : Client × List OutFrame :=
  ({ c with connected := true }, replaySubscriptions c)

/-! ### `send_and_wait` (lines 234-258), timeout path -/

/-- What `send_and_wait` reports to its caller. -/
inductive SendResult where
  | timeoutFailure
  | value (v : Json)

/-- The timeout path of `send_and_wait(action, path, body_or_value,
timeout)`: store a fresh pending future under `path` (silently overwriting
any existing one), send the command once, and when `wait_for` times out,
`self._pending_ack.pop(path, None)` and re-raise `TimeoutError`.  Returns
the final client state, every frame the call wrote to the socket, and the
reported result. -/
def sendAndWaitTimeout (c : Client) (action path : String)
    (bodyOrValue : Option Json) : Client × List OutFrame × SendResult :=
  let c₁ := { c with pendingAck := alistSet c.pendingAck path .pending }
  let frames := sendCommandFrames c₁ action path bodyOrValue
  let c₂ := { c₁ with pendingAck := alistErase c₁.pendingAck path }
  (c₂, frames, .timeoutFailure)

/-! ### `_resolve_path_to_id` and `subscribe`/`unsubscribe` (lines 264-296) -/

/-- `_resolve_path_to_id(path)`: same normalization and walk as the patch
routine (same loop, same caught exceptions), then `node.get("id") if
isinstance(node, dict) else None`. -/
def resolvePathToId (state : Json) (path : String) : Option Json :=
  match pyWalk state (normSegs path) with
  | .ok (.obj kvs) => alistGet kvs "id"
  | .ok _ => none
  | .error _ => none

/-- Python truthiness of a JSON value (`if param_id`). -/
def pyTruthy : Json → Bool
  | .null => false
  | .bool b => b
  | .num q => q.num != 0
  | .str s => s ≠ ""
  | .arr xs => !xs.isEmpty
  | .obj kvs => !kvs.isEmpty

/-- `f"{param_id}"`: Python `str()` of the interpolated id.  Resolume ids
are integers; the non-integer renderings are approximations never relied
on by any theorem (every theorem about `subscribe`/`unsubscribe` concerns
the branch that does not interpolate). -/
def pyFStr : Json → String
  | .num q => if q.den = 1 then toString q.num else toString q
  | .str s => s
  | .bool b => if b then "True" else "False"
  | .null => "None"
  | .arr _ => "[...]"
  | .obj _ => "{...}"

/-- `ws_path = f"/parameter/by-id/{param_id}" if param_id else path`:
the by-id form is used only when the resolved id is truthy. -/
def wsSubPath (state : Json) (path : String) : String :=
  match resolvePathToId state path with
  | some j => if pyTruthy j then "/parameter/by-id/" ++ pyFStr j else path
  | none => path

/-- `subscribe(path)`: resolve the ws path, add it to the Subscription Set
(`set.add`), send the subscribe command for it. -/
def subscribeStep (c : Client) (path : String) : Client × List OutFrame :=
  let wsPath := wsSubPath c.state path
  ({ c with subscriptions :=
       if wsPath ∈ c.subscriptions then c.subscriptions
       else c.subscriptions ++ [wsPath] },
   sendCommandFrames c "subscribe" wsPath none)

/-- `unsubscribe(path)`: resolve the ws path, discard it from the
Subscription Set (`set.discard`), send the unsubscribe command for it. -/
def unsubscribeStep (c : Client) (path : String) : Client × List OutFrame :=
  let wsPath := wsSubPath c.state path
  ({ c with subscriptions := c.subscriptions.filter (fun s => s ≠ wsPath) },
   sendCommandFrames c "unsubscribe" wsPath none)

/-! ### High-level operation used by the C9 scenario -/

/-- `set_layer_opacity(layer_index, opacity)` (lines 406-412): one
`send_command("set", f"/composition/layers/{layer_index}/video/opacity",
opacity)`. -/
def setLayerOpacityFrames (c : Client) (layerIndex : Int) (opacity : ℚ) :
    List OutFrame :=
  sendCommandFrames c "set"
    ("/composition/layers/" ++ toString layerIndex ++ "/video/opacity")
    (some (.num opacity))

/-! ### Reconnect backoff (`_reconnect_loop`, line 181) -/

/-- `delay = min(2 ** attempt, 60) + random.uniform(0, 1)`, modelled in
exact arithmetic; `random.uniform(0, 1)` returns a value in `[0, 1)`. -/
def reconnectDelay (attempt : Nat) (jitter : ℚ) : ℚ :=
  min ((2 : ℚ) ^ attempt) 60 + jitter

/-! ## Association-list lemmas -/

theorem alistGet_alistSet_self {α : Type} (kvs : List (String × α)) (k : String) (v : α) :
    alistGet (alistSet kvs k v) k = some v := by
  induction kvs with
  | nil => simp [alistGet, alistSet]
  | cons kv rest ih =>
    obtain ⟨k₂, v₂⟩ := kv
    by_cases h : k₂ = k <;> simp [alistGet, alistSet, h, ih]

theorem alistGet_alistSet_ne {α : Type} (kvs : List (String × α)) (k k₂ : String) (v : α)
    (h : k₂ ≠ k) : alistGet (alistSet kvs k v) k₂ = alistGet kvs k₂ := by
  induction kvs with
  | nil => simp [alistGet, alistSet, Ne.symm h]
  | cons kv rest ih =>
    obtain ⟨k₃, v₃⟩ := kv
    by_cases h₃ : k₃ = k
    · simp [alistGet, alistSet, h₃, Ne.symm h]
    · by_cases h₄ : k₃ = k₂ <;> simp [alistGet, alistSet, h, h₃, h₄, ih]

theorem alistSet_of_get {α : Type} (kvs : List (String × α)) (k : String) (v : α)
    (h : alistGet kvs k = some v) : alistSet kvs k v = kvs := by
  induction kvs with
  | nil => simp [alistGet] at h
  | cons kv rest ih =>
    obtain ⟨k₂, v₂⟩ := kv
    by_cases h₂ : k₂ = k
    · simp only [alistGet, if_pos h₂, Option.some_inj] at h
      simp [alistSet, h₂, h]
    · simp only [alistGet, if_neg h₂] at h
      simp [alistSet, h₂, ih h]

theorem alistGet_not_mem {α : Type} (kvs : List (String × α)) (k : String)
    (h : k ∉ kvs.map Prod.fst) : alistGet kvs k = none := by
  induction kvs with
  | nil => simp [alistGet]
  | cons kv rest ih =>
    obtain ⟨k₂, v₂⟩ := kv
    simp only [List.map_cons, List.mem_cons] at h
    push_neg at h
    simp [alistGet, Ne.symm h.1, ih h.2]

theorem alistGet_alistErase_ne {α : Type} (kvs : List (String × α)) (k k₂ : String)
    (h : k₂ ≠ k) : alistGet (alistErase kvs k) k₂ = alistGet kvs k₂ := by
  induction kvs with
  | nil => simp [alistErase]
  | cons kv rest ih =>
    obtain ⟨k₃, v₃⟩ := kv
    by_cases h₃ : k₃ = k
    · simp [alistGet, alistErase, h₃, Ne.symm h]
    · by_cases h₄ : k₃ = k₂ <;> simp [alistGet, alistErase, h, h₃, h₄, ih]

theorem alistGet_alistErase_self {α : Type} (kvs : List (String × α)) (k : String)
    (hnd : (kvs.map Prod.fst).Nodup) : alistGet (alistErase kvs k) k = none := by
  induction kvs with
  | nil => simp [alistErase, alistGet]
  | cons kv rest ih =>
    obtain ⟨k₂, v₂⟩ := kv
    simp only [List.map_cons, List.nodup_cons] at hnd
    by_cases h₂ : k₂ = k
    · simp only [alistErase, if_pos h₂]
      exact alistGet_not_mem rest k (h₂ ▸ hnd.1)
    · simp only [alistErase, if_neg h₂, alistGet, if_neg h₂]
      exact ih hnd.2

theorem list_set_of_getElem {α : Type} (xs : List α) (j : Nat) (c : α)
    (h : xs[j]? = some c) : xs.set j c = xs := by
  induction xs generalizing j with
  | nil => simp at h
  | cons x rest ih =>
    cases j with
    | zero => simp at h; simp [List.set, h]
    | succ j₂ => simp at h; simp [List.set, ih j₂ h]

/-! ## Walk inversion lemmas -/

theorem classify_intoArr_inv {node : Json} {seg : String} {xs : List Json}
    {j : Nat} {c : Json} (h : classify node seg = .ok (.intoArr xs j c)) :
    node = .arr xs ∧ xs[j]? = some c ∧
      ∃ i, pyInt seg = some i ∧ seqIdx xs.length i = some j := by
  unfold classify keyStep at h
  repeat' split at h
  all_goals simp_all

theorem classify_intoObj_inv {node : Json} {seg : String}
    {kvs : List (String × Json)} {c : Json}
    (h : classify node seg = .ok (.intoObj kvs c)) :
    node = .obj kvs ∧ alistGet kvs seg = some c ∧ pyInt seg = none := by
  unfold classify keyStep at h
  repeat' split at h
  all_goals simp_all

theorem classify_intoStr_inv {node : Json} {seg : String} {ch : Char}
    (h : classify node seg = .ok (.intoStr ch)) : ∃ s, node = .str s := by
  unfold classify keyStep at h
  repeat' split at h
  all_goals simp_all

theorem classify_error_not_value {node : Json} {seg : String} {e : PyErr}
    (h : classify node seg = .error e) : caughtByOuter e = true := by
  unfold classify keyStep at h
  repeat' split at h
  all_goals first
    | (cases h; rfl)
    | simp_all [caughtByOuter]

/-- Everything reachable by indexing into a Python string is again a
string: a dict can never be reached beyond a string step. -/
theorem pyWalk_str_descent : ∀ (rest : List String) (s : String) (t : Json),
    pyWalk (.str s) rest = .ok t → ∃ s₂, t = .str s₂ := by
  intro rest
  induction rest with
  | nil =>
    intro s t h
    simp only [pyWalk, Except.ok.injEq] at h
    exact ⟨s, h.symm⟩
  | cons seg rest ih =>
    intro s t h
    simp only [pyWalk] at h
    cases hp : pyInt seg with
    | none => simp [classify, hp, keyStep] at h
    | some i =>
      cases hs : seqIdx s.length i with
      | none => simp [classify, hp, hs] at h
      | some j =>
        cases hg : s.data[j]? with
        | none => simp [classify, String.toList, hp, hs, hg] at h
        | some ch =>
          simp only [classify, String.toList, hp, hs, hg] at h
          exact ih _ _ h

/-! ## Localization of the patch -/

/-- `after` is `before` with exactly one dict node's `value` key
overwritten with `v`: along the spine of the derivation one child per node
is replaced, every sibling child (`List.set` / `alistSet` touch one
position) and every node off the spine is shared unchanged. -/
inductive PatchedAt (v : Json) : Json → Json → Prop where
  | here (kvs : List (String × Json)) :
      PatchedAt v (.obj kvs) (.obj (alistSet kvs "value" v))
  | inArr (xs : List Json) (j : Nat) (c c₂ : Json)
      (hj : xs[j]? = some c) (hp : PatchedAt v c c₂) :
      PatchedAt v (.arr xs) (.arr (xs.set j c₂))
  | inObj (kvs : List (String × Json)) (k : String) (c c₂ : Json)
      (hk : alistGet kvs k = some c) (hp : PatchedAt v c c₂) :
      PatchedAt v (.obj kvs) (.obj (alistSet kvs k c₂))

/-- How `pyUpdate` relates to `pyWalk`: they fail identically; when the
walk ends on a non-dict the rebuilt tree is the original; when it ends on
a dict the rebuilt tree differs from the original exactly by that dict's
`value` key (and re-walking the same segments reaches the patched dict). -/
theorem pyUpdate_walk (v : Json) : ∀ (segs : List String) (node : Json),
    (∀ e, pyWalk node segs = .error e → pyUpdate v node segs = .error e) ∧
    (∀ t, pyWalk node segs = .ok t → (∀ kvs, t ≠ .obj kvs) →
      pyUpdate v node segs = .ok node) ∧
    (∀ kvs, pyWalk node segs = .ok (.obj kvs) →
      ∃ u, pyUpdate v node segs = .ok u ∧ PatchedAt v node u ∧
        pyWalk u segs = .ok (.obj (alistSet kvs "value" v))) := by
  intro segs
  induction segs with
  | nil =>
    intro node
    refine ⟨?_, ?_, ?_⟩
    · intro e h
      simp [pyWalk] at h
    · intro t h hno
      simp only [pyWalk, Except.ok.injEq] at h
      subst h
      cases node with
      | obj kvs => exact absurd rfl (hno kvs)
      | null => simp [pyUpdate]
      | bool b => simp [pyUpdate]
      | num q => simp [pyUpdate]
      | str s => simp [pyUpdate]
      | arr xs => simp [pyUpdate]
    · intro kvs h
      simp only [pyWalk, Except.ok.injEq] at h
      subst h
      exact ⟨.obj (alistSet kvs "value" v), by simp [pyUpdate],
        .here kvs, by simp [pyWalk]⟩
  | cons seg rest ih =>
    intro node
    cases hc : classify node seg with
    | error e₀ =>
      refine ⟨?_, ?_, ?_⟩
      · intro e h
        simp only [pyWalk, hc] at h
        simp [pyUpdate, hc, Except.map, h]
      · intro t h hno
        simp [pyWalk, hc] at h
      · intro kvs h
        simp [pyWalk, hc] at h
    | ok d =>
      cases d with
      | intoArr xs j c =>
        obtain ⟨hnode, hj, i, hi, hsj⟩ := classify_intoArr_inv hc
        subst hnode
        refine ⟨?_, ?_, ?_⟩
        · intro e h
          simp only [pyWalk, hc] at h
          simp [pyUpdate, hc, Except.map, (ih c).1 e h]
        · intro t h hno
          simp only [pyWalk, hc] at h
          simp [pyUpdate, hc, Except.map, (ih c).2.1 t h hno, list_set_of_getElem xs j c hj]
        · intro kvs h
          simp only [pyWalk, hc] at h
          obtain ⟨u, hu, hpa, hw⟩ := (ih c).2.2 kvs h
          have hjlt : j < xs.length := by
            by_contra hge
            simp [List.getElem?_eq_none (Nat.le_of_not_lt hge)] at hj
          refine ⟨.arr (xs.set j u), by simp [pyUpdate, hc, Except.map, hu],
            .inArr xs j c u hj hpa, ?_⟩
          have hc₂ : classify (.arr (xs.set j u)) seg = .ok (.intoArr (xs.set j u) j u) := by
            simp [classify, hi, List.length_set, hsj, List.getElem?_set_self hjlt]
          simp [pyWalk, hc₂, hw]
      | intoStr ch =>
        obtain ⟨s, hnode⟩ := classify_intoStr_inv hc
        subst hnode
        refine ⟨?_, ?_, ?_⟩
        · intro e h
          simp only [pyWalk, hc] at h
          simp [pyUpdate, hc, Except.map, (ih (.str (String.singleton ch))).1 e h]
        · intro t h hno
          simp only [pyWalk, hc] at h
          simp [pyUpdate, hc, Except.map, (ih (.str (String.singleton ch))).2.1 t h hno]
        · intro kvs h
          simp only [pyWalk, hc] at h
          obtain ⟨s₂, ht⟩ := pyWalk_str_descent rest (String.singleton ch) _ h
          simp at ht
      | intoObj kvs₀ c =>
        obtain ⟨hnode, hk, hpn⟩ := classify_intoObj_inv hc
        subst hnode
        refine ⟨?_, ?_, ?_⟩
        · intro e h
          simp only [pyWalk, hc] at h
          simp [pyUpdate, hc, Except.map, (ih c).1 e h]
        · intro t h hno
          simp only [pyWalk, hc] at h
          simp [pyUpdate, hc, Except.map, (ih c).2.1 t h hno, alistSet_of_get kvs₀ seg c hk]
        · intro kvs h
          simp only [pyWalk, hc] at h
          obtain ⟨u, hu, hpa, hw⟩ := (ih c).2.2 kvs h
          refine ⟨.obj (alistSet kvs₀ seg u), by simp [pyUpdate, hc, Except.map, hu],
            .inObj kvs₀ seg c u hk hpa, ?_⟩
          have hc₂ : classify (.obj (alistSet kvs₀ seg u)) seg
              = .ok (.intoObj (alistSet kvs₀ seg u) u) := by
            simp [classify, hpn, keyStep, alistGet_alistSet_self]
          simp [pyWalk, hc₂, hw]

/-- Every exception the walk can raise is one the outer handler of
`_apply_incremental_update` catches. -/
theorem pyWalk_error_caught : ∀ (segs : List String) (node : Json) (e : PyErr),
    pyWalk node segs = .error e → caughtByOuter e = true := by
  intro segs
  induction segs with
  | nil =>
    intro node e h
    simp [pyWalk] at h
  | cons seg rest ih =>
    intro node e h
    cases hc : classify node seg with
    | error e₀ =>
      simp only [pyWalk, hc, Except.error.injEq] at h
      exact h ▸ classify_error_not_value hc
    | ok d =>
      cases d with
      | intoArr xs j c =>
        simp only [pyWalk, hc] at h
        exact ih c e h
      | intoStr ch =>
        simp only [pyWalk, hc] at h
        exact ih (.str (String.singleton ch)) e h
      | intoObj kvs c =>
        simp only [pyWalk, hc] at h
        exact ih c e h

/-- `_apply_incremental_update` never lets an exception escape: the
explicit-exception model always returns `.ok`. -/
theorem applyIncrementalUpdateE_eq (state : Json) (path : String) (value : Json) :
    applyIncrementalUpdateE state path value
      = .ok (applyIncrementalUpdate state path value) := by
  unfold applyIncrementalUpdate applyIncrementalUpdateE
  by_cases hseg : normSegs path = []
  · simp [hseg]
  · simp only [if_neg hseg]
    cases hu : pyUpdate value state (normSegs path) with
    | ok st => simp
    | error e =>
      cases hw : pyWalk state (normSegs path) with
      | error e₂ =>
        have he := (pyUpdate_walk value (normSegs path) state).1 e₂ hw
        rw [he] at hu
        injection hu with hu
        simp [hu ▸ pyWalk_error_caught (normSegs path) state e₂ hw]
      | ok t =>
        cases t with
        | obj kvs =>
          obtain ⟨u, hu₂, _, _⟩ := (pyUpdate_walk value (normSegs path) state).2.2 kvs hw
          rw [hu₂] at hu
          cases hu
        | null =>
          have := (pyUpdate_walk value (normSegs path) state).2.1 _ hw (fun kvs h => by cases h)
          rw [this] at hu; cases hu
        | bool b =>
          have := (pyUpdate_walk value (normSegs path) state).2.1 _ hw (fun kvs h => by cases h)
          rw [this] at hu; cases hu
        | num q =>
          have := (pyUpdate_walk value (normSegs path) state).2.1 _ hw (fun kvs h => by cases h)
          rw [this] at hu; cases hu
        | str s =>
          have := (pyUpdate_walk value (normSegs path) state).2.1 _ hw (fun kvs h => by cases h)
          rw [this] at hu; cases hu
        | arr xs =>
          have := (pyUpdate_walk value (normSegs path) state).2.1 _ hw (fun kvs h => by cases h)
          rw [this] at hu; cases hu

/-! ## Claim theorems -/

/-- **C5** — For every incremental frame whose path does not walk to a dict
node of the current State Tree (`patchHit` is false: the normalized path is
empty, the walk raises, or the terminal node is not a dict), processing the
frame leaves the State Tree completely unchanged and no exception escapes
`_apply_incremental_update` (the result is `.ok` of the untouched state,
for every tree shape and every path string). -/
theorem c5_unknown_path_safe (state : Json) (path : String) (value : Json)
    (h : patchHit state path = false) :
    applyIncrementalUpdateE state path value = .ok state
    ∧ applyIncrementalUpdate state path value = state := by
  have hmain : applyIncrementalUpdateE state path value = .ok state := by
    unfold patchHit at h
    unfold applyIncrementalUpdateE
    by_cases hseg : normSegs path = []
    · simp [hseg]
    · simp only [if_neg hseg] at h ⊢
      cases hw : pyWalk state (normSegs path) with
      | error e =>
        have he := (pyUpdate_walk value (normSegs path) state).1 e hw
        simp [he, pyWalk_error_caught (normSegs path) state e hw]
      | ok t =>
        cases t with
        | obj kvs => rw [hw] at h; simp at h
        | null =>
          simp [(pyUpdate_walk value (normSegs path) state).2.1 _ hw
            (fun kvs h₂ => by cases h₂)]
        | bool b =>
          simp [(pyUpdate_walk value (normSegs path) state).2.1 _ hw
            (fun kvs h₂ => by cases h₂)]
        | num q =>
          simp [(pyUpdate_walk value (normSegs path) state).2.1 _ hw
            (fun kvs h₂ => by cases h₂)]
        | str s =>
          simp [(pyUpdate_walk value (normSegs path) state).2.1 _ hw
            (fun kvs h₂ => by cases h₂)]
        | arr xs =>
          simp [(pyUpdate_walk value (normSegs path) state).2.1 _ hw
            (fun kvs h₂ => by cases h₂)]
  refine ⟨hmain, ?_⟩
  have := applyIncrementalUpdateE_eq state path value
  rw [hmain] at this
  injection this with this
  exact this.symm

/-- Witness for `c5_unknown_path_safe` at a concrete input. -/
theorem c5_unknown_path_safe_witness :
    applyIncrementalUpdateE (.obj []) "/composition/layers/1/video/opacity" (.num 0)
      = .ok (.obj [])
    ∧ applyIncrementalUpdate (.obj []) "/composition/layers/1/video/opacity" (.num 0)
      = .obj [] :=
  c5_unknown_path_safe (.obj []) "/composition/layers/1/video/opacity" (.num 0) rfl

/-- **C4, counterexample** — Under the spec's walk ("first tried as a
numeric sequence index, falling back to a mapping key") the path `/3`
resolves in the tree `{"3": {"value": 0}}` to an existing leaf parameter
mapping, yet the code's patch drops the frame and leaves the tree
unchanged: the leaf's `value` is still `0`, not the frame's value `1`.
The code's inner handler only catches `ValueError`/`TypeError`, so the
`KeyError` of `node[3]` on a dict aborts the walk instead of falling back
to the mapping key `"3"`. -/
theorem c4_counterexample :
    specResolve (.obj [("3", .obj [("value", .num 0)])]) (normSegs "/3")
      = some (.obj [("value", .num 0)])
    ∧ alistGet [("value", Json.num 0)] "value" = some (.num 0)
    ∧ applyIncrementalUpdate (.obj [("3", .obj [("value", .num 0)])]) "/3" (.num 1)
      = .obj [("3", .obj [("value", .num 0)])]
    ∧ patchHit (.obj [("3", .obj [("value", .num 0)])]) "/3" = false :=
  ⟨rfl, rfl, rfl, rfl⟩

/-- **C4, amended** — For every incremental frame whose path resolves to an
existing dict node under the *code's* walk (a segment that parses as an
integer indexes sequences only and never falls back to a mapping key; only
non-integer segments are tried as mapping keys), immediately after
processing the frame that node's `value` field equals the frame's value,
every other field of that node is unchanged, and the whole new tree is the
old tree with exactly that one `value` key overwritten (`PatchedAt`). -/
theorem c4_amended (state : Json) (path : String) (value : Json)
    (kvs : List (String × Json))
    (h₁ : normSegs path ≠ [])
    (h₂ : pyWalk state (normSegs path) = .ok (.obj kvs)) :
    pyWalk (applyIncrementalUpdate state path value) (normSegs path)
      = .ok (.obj (alistSet kvs "value" value))
    ∧ alistGet (alistSet kvs "value" value) "value" = some value
    ∧ (∀ k, k ≠ "value" → alistGet (alistSet kvs "value" value) k = alistGet kvs k)
    ∧ PatchedAt value state (applyIncrementalUpdate state path value) := by
  obtain ⟨u, hu, hpa, hw⟩ := (pyUpdate_walk value (normSegs path) state).2.2 kvs h₂
  have happ : applyIncrementalUpdate state path value = u := by
    simp [applyIncrementalUpdate, applyIncrementalUpdateE, if_neg h₁, hu]
  rw [happ]
  exact ⟨hw, alistGet_alistSet_self kvs "value" value,
    fun k hk => alistGet_alistSet_ne kvs "value" k value hk, hpa⟩

/-- Witness for `c4_amended` at a concrete input: patching
`{"layers": [{"opacity": {"value": 0, "id": 7}}]}` at
`/composition/layers/0/opacity` and re-reading the patched leaf. -/
theorem c4_amended_witness :
    pyWalk (applyIncrementalUpdate
        (.obj [("layers", .arr [.obj [("opacity", .obj [("value", .num 0), ("id", .num 7)])]])])
        "/composition/layers/0/opacity" (.num 1))
      (normSegs "/composition/layers/0/opacity")
      = .ok (.obj (alistSet [("value", .num 0), ("id", .num 7)] "value" (.num 1))) :=
  (c4_amended
    (.obj [("layers", .arr [.obj [("opacity", .obj [("value", .num 0), ("id", .num 7)])]])])
    "/composition/layers/0/opacity" (.num 1) [("value", .num 0), ("id", .num 7)]
    (by decide) rfl).1

/-! ## Registry-key lemmas for `send_and_wait` -/

theorem mem_fst_alistSet {α : Type} (kvs : List (String × α)) (k k₃ : String) (v : α)
    (h : k₃ ∈ (alistSet kvs k v).map Prod.fst) :
    k₃ ∈ kvs.map Prod.fst ∨ k₃ = k := by
  induction kvs with
  | nil => simp [alistSet] at h; exact Or.inr h
  | cons kv rest ih =>
    obtain ⟨k₂, v₂⟩ := kv
    by_cases h₂ : k₂ = k
    · simp only [alistSet, if_pos h₂, List.map_cons, List.mem_cons] at h
      rcases h with h | h
      · exact Or.inr h
      · exact Or.inl (by simp [h])
    · simp only [alistSet, if_neg h₂, List.map_cons, List.mem_cons] at h
      rcases h with h | h
      · exact Or.inl (by simp [h])
      · rcases ih h with h₃ | h₃
        · exact Or.inl (by simp [h₃])
        · exact Or.inr h₃

theorem alistSet_nodup_keys {α : Type} (kvs : List (String × α)) (k : String) (v : α)
    (hnd : (kvs.map Prod.fst).Nodup) : ((alistSet kvs k v).map Prod.fst).Nodup := by
  induction kvs with
  | nil => simp [alistSet]
  | cons kv rest ih =>
    obtain ⟨k₂, v₂⟩ := kv
    simp only [List.map_cons, List.nodup_cons] at hnd
    by_cases h₂ : k₂ = k
    · simp only [alistSet, if_pos h₂, List.map_cons, List.nodup_cons]
      exact ⟨h₂ ▸ hnd.1, hnd.2⟩
    · simp only [alistSet, if_neg h₂, List.map_cons, List.nodup_cons]
      refine ⟨fun hmem => ?_, ih hnd.2⟩
      rcases mem_fst_alistSet rest k k₂ v hmem with h₃ | h₃
      · exact hnd.1 h₃
      · exact h₂ h₃

/-! ## Remaining claim theorems -/

/-- **C7** — For every `send_and_wait(action, path, payload, timeout)` call
whose correlation times out: the call reports the timeout failure to its
caller, the Pending Correlation for `path` is removed (no residual entry),
every other registry entry is untouched, and the only traffic the call
produced is the single initial command — nothing is resent or canceled. -/
theorem c7_timeout_cleanup (c : Client) (action path : String) (bv : Option Json)
    (hnd : (c.pendingAck.map Prod.fst).Nodup) :
    (sendAndWaitTimeout c action path bv).2.2 = .timeoutFailure
    ∧ alistGet (sendAndWaitTimeout c action path bv).1.pendingAck path = none
    ∧ (∀ q, q ≠ path →
        alistGet (sendAndWaitTimeout c action path bv).1.pendingAck q
          = alistGet c.pendingAck q)
    ∧ (sendAndWaitTimeout c action path bv).2.1 = sendCommandFrames c action path bv
    ∧ (sendAndWaitTimeout c action path bv).2.1.length ≤ 1 := by
  refine ⟨rfl, ?_, ?_, rfl, ?_⟩
  · exact alistGet_alistErase_self _ path (alistSet_nodup_keys c.pendingAck path .pending hnd)
  · intro q hq
    show alistGet (alistErase (alistSet c.pendingAck path .pending) path) q = _
    rw [alistGet_alistErase_ne _ path q hq, alistGet_alistSet_ne _ path q _ hq]
  · show (sendCommandFrames _ action path bv).length ≤ 1
    unfold sendCommandFrames
    repeat' split
    all_goals simp

/-- Witness for `c7_timeout_cleanup` at a concrete input: after the
timeout no entry remains for the path. -/
theorem c7_timeout_cleanup_witness :
    alistGet (sendAndWaitTimeout { connected := true, wsOpen := true } "set"
        "/composition/layers/1/bypassed" (some (.bool true))).1.pendingAck
      "/composition/layers/1/bypassed" = none :=
  (c7_timeout_cleanup { connected := true, wsOpen := true } "set"
    "/composition/layers/1/bypassed" (some (.bool true)) (by simp)).2.1

/-- **C6** — Processing a full-state frame resolves every Pending
Correlation outstanding at that moment exactly once each (every pending
future becomes `resolved None`, already-done ones are left as they are —
never resolved a second time), regardless of path, and removes all entries
from the Ack Registry, leaving it empty. -/
theorem c6_full_state_resolves_all (c : Client) (frame : List (String × Json))
    (hfull : (alistGet frame "decks").isSome = true
      ∨ (alistGet frame "layers").isSome = true) :
    processFrame c frame
      = some ({ c with state := .obj frame, stateReady := true, pendingAck := [] },
              c.pendingAck.map (fun pf => (pf.1, futResolve .null pf.2)))
    ∧ (∀ p f, (p, f) ∈ c.pendingAck → f = .pending →
        (p, FutState.resolved .null)
          ∈ c.pendingAck.map (fun pf => (pf.1, futResolve .null pf.2)))
    ∧ (∀ p f, (p, f) ∈ c.pendingAck → f ≠ .pending →
        (p, f) ∈ c.pendingAck.map (fun pf => (pf.1, futResolve .null pf.2)))
    ∧ (c.pendingAck.map (fun pf => (pf.1, futResolve .null pf.2))).length
      = c.pendingAck.length := by
  refine ⟨ ?_, ?_, ?_, by simp⟩
  · simp only [processFrame]
    rw [if_pos hfull]
  · intro p f hmem hf
    subst hf
    simpa [futResolve] using List.mem_map_of_mem (fun pf => (pf.1, futResolve Json.null pf.2)) hmem
  · intro p f hmem hf
    have := List.mem_map_of_mem (fun pf => (pf.1, futResolve Json.null pf.2)) hmem
    have hres : futResolve Json.null f = f := by
      cases f with
      | pending => exact absurd rfl hf
      | resolved v => rfl
      | failed => rfl
      | cancelled => rfl
    simpa [hres] using this

/-- Witness for `c6_full_state_resolves_all` at a concrete input: a
full-state frame empties a two-entry registry, resolving the pending entry
with `None` and removing the already-resolved one untouched. -/
theorem c6_full_state_resolves_all_witness :
    processFrame
        { pendingAck := [("/a", .pending), ("/b", .resolved (.num 1))] }
        [("layers", .arr [])]
      = some ({ state := .obj [("layers", .arr [])], stateReady := true, pendingAck := [] },
              ([("/a", FutState.pending), ("/b", FutState.resolved (.num 1))]).map
                (fun pf => (pf.1, futResolve .null pf.2))) :=
  (c6_full_state_resolves_all
    { pendingAck := [("/a", .pending), ("/b", .resolved (.num 1))] }
    [("layers", .arr [])] (Or.inr rfl)).1

/-- **C1, counterexample** — The claim says the correlation for `P` is
resolved with the frame's value *only if* the patch succeeded and is left
unresolved when the patch is dropped for an unknown path.  On an empty
State Tree the patch of `/foo` is dropped (`patchHit` is false, the tree
is unchanged), yet `_listen` still pops and resolves the Pending
Correlation for `/foo` with the frame's value `5`. -/
theorem c1_counterexample :
    processFrame { state := .obj [], pendingAck := [("/foo", .pending)] }
        [("path", .str "/foo"), ("value", .num 5)]
      = some ({ state := .obj [], pendingAck := [] },
              [("/foo", FutState.resolved (.num 5))])
    ∧ patchHit (.obj []) "/foo" = false
    ∧ applyIncrementalUpdate (.obj []) "/foo" (.num 5) = .obj [] :=
  ⟨rfl, rfl, rfl⟩

/-- **C1, amended** — For every incremental frame carrying path `P` and
value `V`, a Pending Correlation stored for exactly `P` is popped and
resolved with `V` *regardless of whether the patch succeeded*; and no
incremental frame with a path other than `P` touches the correlation for
`P` (it resolves with an incremental frame's value iff a frame with
exactly path `P` arrives while it is pending). -/
theorem c1_amended (c : Client) (frame : List (String × Json)) (p : String) (v : Json)
    (hdecks : alistGet frame "decks" = none)
    (hlayers : alistGet frame "layers" = none)
    (hpath : alistGet frame "path" = some (.str p))
    (hvalue : alistGet frame "value" = some v)
    (hpend : alistGet c.pendingAck p = some .pending) :
    processFrame c frame
      = some ({ c with state := applyIncrementalUpdate c.state p v,
                       pendingAck := alistErase c.pendingAck p },
              [(p, FutState.resolved v)])
    ∧ ∀ (frame₂ : List (String × Json)) (q : String) (v₂ : Json),
        alistGet frame₂ "decks" = none → alistGet frame₂ "layers" = none →
        alistGet frame₂ "path" = some (.str q) → alistGet frame₂ "value" = some v₂ →
        q ≠ p → ∀ c₃ outs, processFrame c frame₂ = some (c₃, outs) →
          alistGet c₃.pendingAck p = some .pending := by
  constructor
  · simp only [processFrame, hdecks, hlayers, hpath, hvalue, hpend]
    simp [futResolve]
  · intro frame₂ q v₂ hd₂ hl₂ hp₂ hv₂ hq c₃ outs hpr
    simp only [processFrame, hd₂, hl₂, hp₂, hv₂] at hpr
    simp only [Option.isSome_some, Option.isSome_none, Bool.false_eq_true, or_self,
      if_false, and_self, if_true] at hpr
    cases hqe : alistGet c.pendingAck q with
    | some f =>
      rw [hqe] at hpr
      simp only [Option.some_inj, Prod.mk.injEq] at hpr
      rw [← hpr.1]
      show alistGet (alistErase c.pendingAck q) p = some .pending
      rw [alistGet_alistErase_ne c.pendingAck q p (Ne.symm hq)]
      exact hpend
    | none =>
      rw [hqe] at hpr
      simp only [Option.some_inj, Prod.mk.injEq] at hpr
      rw [← hpr.1]
      exact hpend

/-- Witness for `c1_amended` at a concrete input: a frame for `/foo`
resolves the correlation for `/foo` with its value even though the patch
is dropped (empty tree). -/
theorem c1_amended_witness :
    processFrame { state := .obj [], pendingAck := [("/foo", .pending)] }
        [("path", .str "/foo"), ("value", .num 5)]
      = some ({ (({ state := .obj [], pendingAck := [("/foo", .pending)] } : Client)) with
                  state := applyIncrementalUpdate (.obj []) "/foo" (.num 5),
                  pendingAck := alistErase [("/foo", FutState.pending)] "/foo" },
              [("/foo", FutState.resolved (.num 5))]) :=
  (c1_amended { state := .obj [], pendingAck := [("/foo", .pending)] }
    [("path", .str "/foo"), ("value", .num 5)] "/foo" (.num 5)
    rfl rfl rfl rfl rfl).1

/-- **C2** — After a successful (re)connect the replay loop runs *before*
`self._connected = True` (connect: lines 67-71; reconnect: lines 188-190),
and `send_command`'s not-connected guard (line 218) silently drops every
write while `_connected` is false.  So for any client that reaches the
replay point not yet marked connected — which is every initial connect and
every reconnect attempt, since the close handler set `_connected = False` —
*zero* subscribe frames reach the socket, not one per subscribed path. -/
theorem c2_replay_suppressed (c : Client) (h : c.connected = false) :
    (postStateReadyPhase c).2 = []
    ∧ (postStateReadyPhase c).1.connected = true := by
  constructor
  · show replaySubscriptions c = []
    unfold replaySubscriptions
    have hemp : ∀ path, sendCommandFrames c "subscribe" path none = [] := by
      intro path
      unfold sendCommandFrames
      cases hd : c.dryRun <;> simp [h, hd]
    induction c.subscriptions with
    | nil => rfl
    | cons p rest ih => simp [List.flatMap_cons, hemp, ih]
  · rfl

/-- Witness for `c2_replay_suppressed`: a client with one subscribed path
and an open socket completing the (re)connect sequence sends nothing. -/
theorem c2_replay_suppressed_witness :
    Client.subscriptions { wsOpen := true, subscriptions := ["/parameter/by-id/5"] }
      = ["/parameter/by-id/5"]
    ∧ (postStateReadyPhase { wsOpen := true, subscriptions := ["/parameter/by-id/5"] }).2 = []
    ∧ (postStateReadyPhase { wsOpen := true, subscriptions := ["/parameter/by-id/5"] }).1.connected
      = true :=
  ⟨rfl, c2_replay_suppressed { wsOpen := true, subscriptions := ["/parameter/by-id/5"] } rfl⟩

/-- **C3, counterexample** — The claim says `disconnect` fails every
outstanding Pending Correlation with a "connection closed" error.  The
code calls `fut.cancel()` instead (line 87): the waiter of a pending
correlation observes cancellation (`CancelledError`), which is a different
outcome from the `ConnectionError("WebSocket connection closed")` the
listener's close handler would set. -/
theorem c3_counterexample :
    (disconnect { pendingAck := [("/p", .pending)] }).2 = [("/p", FutState.cancelled)]
    ∧ FutState.cancelled ≠ FutState.failed
    ∧ futFailClosed .pending = .failed :=
  ⟨rfl, fun h => FutState.noConfusion h, rfl⟩

/-- **C3, amended** — `disconnect()` is idempotent and safe even if
connect never ran or never succeeded: it suppresses reconnection, marks
the reconnect and listener tasks cancelled, *cancels* every outstanding
Pending Correlation (each waiter observes cancellation — not a hang, but
also not a "connection closed" error), empties the Ack Registry, closes
the socket, and clears the state-ready signal (the cached tree is kept). -/
theorem c3_amended (c : Client) :
    (disconnect c).1.connected = false
    ∧ (disconnect c).1.reconnectTaskActive = false
    ∧ (disconnect c).1.listenTaskActive = false
    ∧ (disconnect c).1.pendingAck = []
    ∧ (disconnect c).1.wsOpen = false
    ∧ (disconnect c).1.stateReady = false
    ∧ (disconnect c).1.state = c.state
    ∧ (disconnect c).2 = c.pendingAck.map (fun pf => (pf.1, futCancel pf.2))
    ∧ (∀ p f, (p, f) ∈ c.pendingAck → f = .pending →
        (p, FutState.cancelled) ∈ (disconnect c).2)
    ∧ disconnect (disconnect c).1 = ((disconnect c).1, []) := by
  refine ⟨rfl, rfl, rfl, rfl, rfl, rfl, rfl, rfl, ?_, rfl⟩
  intro p f hmem hf
  subst hf
  simpa [disconnect, futCancel] using
    List.mem_map_of_mem (fun pf => (pf.1, futCancel pf.2)) hmem

/-- Witness for `c3_amended` at a concrete input: the pending correlation
of a one-entry registry is reported cancelled. -/
theorem c3_amended_witness :
    ("/p", FutState.cancelled) ∈ (disconnect { pendingAck := [("/p", .pending)] }).2 :=
  (c3_amended { pendingAck := [("/p", .pending)] }).2.2.2.2.2.2.2.2.1
    "/p" .pending (by simp) rfl

/-- **C8** — For every reconnect attempt `n` (0-indexed, below the
configured maximum number of attempts), the slept delay
`min(2 ** n, 60) + uniform(0, 1)` lies in the half-open interval
`[min(2^n, 60), min(2^n, 60) + 1)`; the cap in the source is the literal
`60`. -/
theorem c8_backoff_interval (maxAttempts attempt : Nat) (jitter : ℚ)
    (hatt : attempt < maxAttempts) (h0 : 0 ≤ jitter) (h1 : jitter < 1) :
    min ((2 : ℚ) ^ attempt) 60 ≤ reconnectDelay attempt jitter
    ∧ reconnectDelay attempt jitter < min ((2 : ℚ) ^ attempt) 60 + 1 := by
  unfold reconnectDelay
  constructor <;> linarith

/-- Witness for `c8_backoff_interval` at attempt 0 with jitter 1/2. -/
theorem c8_backoff_interval_witness :
    min ((2 : ℚ) ^ 0) 60 ≤ reconnectDelay 0 (1 / 2)
    ∧ reconnectDelay 0 (1 / 2) < min ((2 : ℚ) ^ 0) 60 + 1 :=
  c8_backoff_interval 10 0 (1 / 2) (by norm_num) (by norm_num) (by norm_num)

/-- The State Tree of the C9 scenario: the full-state frame
`{"layers": [{"name": {"value": "Layer 1"}}]}`. -/
def c9Tree : Json := .obj [("layers", .arr [.obj [("name", .obj [("value", .str "Layer 1")])]])]

/-- The parameter path of the C9 scenario. -/
def c9Path : String := "/composition/layers/1/video/opacity"

/-- The connected client of the C9 scenario, with a correlated send
outstanding for the opacity path. -/
def c9Client : Client :=
  { state := c9Tree, connected := true, wsOpen := true,
    pendingAck := [(c9Path, .pending)] }

/-- **C9, counterexample** — In the scenario's tree the path
`/composition/layers/1/video/opacity` does not resolve (the one-element
`layers` sequence has no index 1 — and no `video` node either), under the
code's walk and under the spec's walk alike: the incremental frame's patch
is dropped and the State Tree still carries no `0.0` anywhere, contrary to
the claim that "the State Tree's node at that path has value 0.0". -/
theorem c9_counterexample :
    applyIncrementalUpdate c9Tree c9Path (.num 0) = c9Tree
    ∧ pyWalk c9Tree (normSegs c9Path) = .error .indexError
    ∧ specResolve c9Tree (normSegs c9Path) = none
    ∧ patchHit c9Tree c9Path = false :=
  ⟨rfl, rfl, rfl, rfl⟩

/-- **C9, amended** — In the concrete scenario (client connected with the
scenario tree), `set_layer_opacity(1, 0.0)` emits the set command for
`/composition/layers/1/video/opacity` with value `0.0`; when the
incremental frame for that exact path arrives, the correlated send
resolves with `0.0`, but the State Tree is left unchanged — the path does
not resolve in that tree, so no node of it carries the new value. -/
theorem c9_amended :
    setLayerOpacityFrames c9Client 1 0
      = [.withValue "set" c9Path (some (.num 0))]
    ∧ processFrame c9Client [("path", .str c9Path), ("value", .num 0)]
      = some ({ c9Client with pendingAck := [] },
              [(c9Path, FutState.resolved (.num 0))])
    ∧ (Client.state { c9Client with pendingAck := [] }) = c9Tree :=
  ⟨rfl, rfl, rfl⟩

/-- **C10** — For every `subscribe(path)` / `unsubscribe(path)` call where
`_resolve_path_to_id` yields no id (the walk fails, the terminal node is
not a dict, or the dict has no `id` key) or yields the numeric id `0` (the
check `if param_id` is truthiness-based), the Subscription Set is updated
with the raw caller path — not the `/parameter/by-id/{id}` form — and the
command passed to `send_command` targets that raw path; in particular a
parameter whose id is `0` is never addressed by id. -/
theorem c10_raw_path_on_falsy_id (c : Client) (path : String)
    (h : resolvePathToId c.state path = none
      ∨ resolvePathToId c.state path = some (.num 0)) :
    wsSubPath c.state path = path
    ∧ (subscribeStep c path).1.subscriptions
      = (if path ∈ c.subscriptions then c.subscriptions else c.subscriptions ++ [path])
    ∧ (subscribeStep c path).2 = sendCommandFrames c "subscribe" path none
    ∧ (unsubscribeStep c path).1.subscriptions
      = c.subscriptions.filter (fun s => s ≠ path)
    ∧ (unsubscribeStep c path).2 = sendCommandFrames c "unsubscribe" path none := by
  have hw : wsSubPath c.state path = path := by
    rcases h with h | h <;> simp [wsSubPath, h, pyTruthy]
  exact ⟨hw, by simp [subscribeStep, hw], by simp [subscribeStep, hw],
    by simp [unsubscribeStep, hw], by simp [unsubscribeStep, hw]⟩

/-- Witness for `c10_raw_path_on_falsy_id`: a parameter whose `id` is `0`
is subscribed under its raw path. -/
theorem c10_raw_path_on_falsy_id_witness :
    wsSubPath (.obj [("tempo", .obj [("id", .num 0), ("value", .num 120)])])
      "/composition/tempo" = "/composition/tempo" :=
  (c10_raw_path_on_falsy_id
    { state := .obj [("tempo", .obj [("id", .num 0), ("value", .num 120)])],
      connected := true, wsOpen := true }
    "/composition/tempo" (Or.inr rfl)).1

end ResolumeClient